import Mathlib

/-!
Shallow embedding of the cashu-marketplace escrow/ledger core.

The definitions below are translated from the Rust sources:
  * `src/models/escrow.rs`   — `EscrowStatus`, `Escrow`, `Dispute`,
    `DisputeResolution` (parsing and amount calculation);
  * `src/services/escrow.rs` — `EscrowService` (create / release /
    resolve / mark_disputed / auto-release sweep, wallet credit/debit);
  * `src/routes/cart.rs`     — the `checkout` payment handler;
  * `src/routes/admin.rs`    — the `resolve_dispute` handler.

Modelling conventions:
  * The SQLite store is a `Db` record: the `users` table is a partial map
    from npub to wallet balance, the other tables are lists of rows.
    Row fields that none of the modelled operations read or write
    (tracking info, shipping blobs, uuid primary keys of transaction
    rows, …) are omitted.
  * Row ids generated with `uuid::Uuid::new_v4()` are modelled as `Nat`
    arguments supplied by the caller (the uuid is an external source of
    fresh identifiers).
  * `Utc::now()` / `CURRENT_TIMESTAMP` are an explicit `now : Int`
    argument, in whole seconds; `chrono::Duration::days n` is `n * 86400`
    seconds and `Duration::num_days` is truncating division by `86400`,
    as in chrono.
  * Rust `i64` arithmetic performed by the service code is modelled on
    `Int` with an explicit two's-complement wrap `wrap64` (release-profile
    semantics); Rust `u8` values are `Fin 256` and their addition wraps
    modulo 256.  Rust `i64` division truncates toward zero: `Int.tdiv`.
  * Fallible handlers return `Except AppError α × Db`: the returned `Db`
    is the store as the function leaves it, also on the error path —
    the code runs its SQL statements one by one with no surrounding
    transaction, so writes made before an early return persist.
-/

namespace CashuMarket

/-- Two's-complement wrap of a mathematical integer into the `i64` range,
modelling Rust release-profile overflow semantics. -/
def wrap64 (x : Int) : Int :=
  (x + 2 ^ 63) % 2 ^ 64 - 2 ^ 63

/-- Error type, from `src/error.rs` (only the variants the modelled code
can produce).  `RowNotFound` stands for a propagated sqlx error from
`fetch_one` finding no row. -/
inductive AppError where
  | EscrowNotFound
  | EscrowAlreadyReleased
  | EscrowAlreadyRefunded
  | InsufficientBalanceDetails (needed available : Int)
  | InvalidResolution
  | DisputeNotFound
  | DisputeAlreadyResolved
  | PriceLockExpired
  | InvalidCashuToken
  | PaymentFailed
  | RowNotFound
deriving DecidableEq, Repr

/-- Escrow row, from `src/models/escrow.rs` (`pub struct Escrow`).
The status is persisted as a raw string, exactly as in the table. -/
structure Escrow where
  id : Nat
  buyer_npub : String
  seller_npub : String
  amount : Int
  status : String
  auto_release_at : Int
  created_at : Int
  resolved_at : Option Int
deriving DecidableEq, Repr

/-- Escrow status enum, from `src/models/escrow.rs`. -/
inductive EscrowStatus where
  | Held
  | Released
  | Refunded
  | Disputed
deriving DecidableEq, Repr

/-- The `impl From<String> for EscrowStatus`: the three recognised strings
map to their variants, every other string falls through to `Held`. -/
def EscrowStatus.fromString (s : String) : EscrowStatus :=
  if s = "released" then .Released
  else if s = "refunded" then .Refunded
  else if s = "disputed" then .Disputed
  else .Held

/-- The `Escrow::status_enum` accessor. -/
def Escrow.status_enum (e : Escrow) : EscrowStatus :=
  EscrowStatus.fromString e.status

/-- The `Escrow::can_release` guard. -/
def Escrow.can_release (e : Escrow) : Bool :=
  e.status_enum = EscrowStatus.Held

/-- The `Escrow::can_refund` guard. -/
def Escrow.can_refund (e : Escrow) : Bool :=
  e.status_enum = EscrowStatus.Held

/-- Dispute status enum, from `src/models/escrow.rs`:
`"resolved"` maps to `Resolved`, everything else to `Open`. -/
inductive DisputeStatus where
  | Open
  | Resolved
deriving DecidableEq, Repr

/-- The `impl From<String> for DisputeStatus`. -/
def DisputeStatus.fromString (s : String) : DisputeStatus :=
  if s = "resolved" then .Resolved else .Open

/-- Dispute row, from `src/models/escrow.rs` (`pub struct Dispute`).
Resolution strings are kept as `List Char`, the domain of the
resolution-string functions below. -/
structure Dispute where
  id : Nat
  order_id : Nat
  escrow_id : Nat
  initiated_by : String
  reason : String
  status : String
  resolution : Option (List Char)
  resolution_notes : Option (List Char)
  resolved_by : Option String
  warning_sent_at : Option Int
  auto_resolve_at : Int
  created_at : Int
  resolved_at : Option Int
deriving DecidableEq, Repr

/-- The `Dispute::status_enum` accessor. -/
def Dispute.status_enum (d : Dispute) : DisputeStatus :=
  DisputeStatus.fromString d.status

/-- The `Dispute::is_open` check. -/
def Dispute.is_open (d : Dispute) : Bool :=
  d.status_enum = DisputeStatus.Open

/-- The `Dispute::should_auto_resolve` predicate. -/
def Dispute.should_auto_resolve (d : Dispute) (now : Int) : Bool :=
  d.is_open && decide (d.auto_resolve_at ≤ now)

/-- The `Dispute::should_send_warning` predicate:
`is_open && warning_sent_at.is_none() && (auto_resolve_at - now).num_days() <= 7`,
where `num_days` is chrono's whole-day count, i.e. truncating division of
the signed second difference by 86400. -/
def Dispute.should_send_warning (d : Dispute) (now : Int) : Bool :=
  d.is_open && d.warning_sent_at.isNone
    && decide ((d.auto_resolve_at - now).tdiv 86400 ≤ 7)

/-- Dispute resolution, from `src/models/escrow.rs`.  The two split
percentages are Rust `u8` fields, hence `Fin 256`. -/
inductive DisputeResolution where
  | BuyerFull
  | SellerFull
  | Split (buyer_percent seller_percent : Fin 256)
  | Burn
deriving DecidableEq, Repr

/-- Rust's `str::parse::<u8>()` on a char list: an optional leading `'+'`,
then one or more ascii digits, and the resulting value must fit in `u8`
(parsing fails on overflow, so acceptance is exactly `value ≤ 255`). -/
def parseU8 (cs : List Char) : Option (Fin 256) :=
  let ds := match cs with
    | '+' :: rest => rest
    | _ => cs
  if ds ≠ [] ∧ ds.all Char.isDigit then
    let v := ds.foldl (fun a c => a * 10 + (c.toNat - 48)) 0
    if h : v < 256 then some ⟨v, h⟩ else none
  else none

/-- Rust's `str::split` on one separator char: maximal runs between
separators, with empty runs kept (`"" → [""]`, `"_" → ["", ""]`). -/
def splitOnChar (sep : Char) : List Char → List (List Char)
  | [] => [[]]
  | c :: cs =>
    match splitOnChar sep cs with
    | [] => [[]]
    | p :: ps => if c = sep then [] :: p :: ps else (c :: p) :: ps

/-- The `DisputeResolution::from_str` parser.  The literal arms first;
then, for a string starting with `"split_"`, the remainder is split on
`'_'` into exactly two parts, each parsed as a `u8`.  The sum check
`buyer + seller == 100` is Rust `u8` addition, so it compares the sum
modulo 256 with 100 (in a debug build the same overflow panics instead of
wrapping; under neither semantics is the string rejected with a parse
failure only when the true sum differs from 100). -/
def DisputeResolution.from_str (cs : List Char) : Option DisputeResolution :=
  if cs = "buyer_full".data then some .BuyerFull
  else if cs = "seller_full".data then some .SellerFull
  else if cs = "burn".data then some .Burn
  else if ("split_".data).isPrefixOf cs then
    match splitOnChar '_' (cs.drop 6) with
    | [p1, p2] =>
      match parseU8 p1, parseU8 p2 with
      | some b, some s =>
        if (b.val + s.val) % 256 = 100 then some (.Split b s) else none
      | _, _ => none
    | _ => none
  else none

/-- The `DisputeResolution::calculate_amounts` function: the pair
`(buyer_amount, seller_amount)` for an escrow total, with the split case
computing `(total * percent as i64) / 100` in `i64` arithmetic
(two's-complement product, truncating division). -/
def DisputeResolution.calculate_amounts (r : DisputeResolution) (total : Int) : Int × Int :=
  match r with
  | .BuyerFull => (total, 0)
  | .SellerFull => (0, total)
  | .Burn => (0, 0)
  | .Split b s =>
    ((wrap64 (total * (b.val : Int))).tdiv 100,
     (wrap64 (total * (s.val : Int))).tdiv 100)

/-- Wallet transaction row, from the `wallet_transactions` inserts in
`src/services/escrow.rs` (the generated uuid primary key is omitted). -/
structure WalletTx where
  user_npub : String
  transaction_type : String
  amount : Int
  balance_after : Int
  reference_id : Option Nat
deriving DecidableEq, Repr

/-- Order row, from `src/models/order.rs`, restricted to the fields the
modelled operations read or write. -/
structure Order where
  id : Nat
  checkout_id : Nat
  buyer_npub : String
  seller_npub : String
  escrow_id : Nat
  status : String
  completed_at : Option Int
  created_at : Int
deriving DecidableEq, Repr

/-- Checkout session row, from `src/models/listing.rs` usage in
`src/routes/cart.rs`. -/
structure CheckoutSession where
  id : Nat
  user_npub : String
  status : String
  total_amount : Int
  fee_amount : Int
  expires_at : Int
  paid_at : Option Int
deriving DecidableEq, Repr

/-- Checkout item row: a price locked for one listing of one seller. -/
structure CheckoutItem where
  checkout_id : Nat
  listing_id : Nat
  seller_npub : String
  locked_price : Int
  encrypted_shipping : Option String
deriving DecidableEq, Repr

/-- Order item row (uuid primary key omitted). -/
structure OrderItem where
  order_id : Nat
  listing_id : Nat
  price : Int
  encrypted_shipping : Option String
deriving DecidableEq, Repr

/-- Cart item row: a listing sitting in a user's cart. -/
structure CartItem where
  user_npub : String
  listing_id : Nat
deriving DecidableEq, Repr

/-- The durable store: the `users` table as a partial map from npub to
`wallet_balance`, the other tables as row lists (inserts append). -/
structure Db where
  users : String → Option Int
  escrows : List Escrow
  orders : List Order
  txs : List WalletTx
  disputes : List Dispute
  sessions : List CheckoutSession
  checkout_items : List CheckoutItem
  order_items : List OrderItem
  cart_items : List CartItem

/-- Look an escrow row up by id (`SELECT * FROM escrows WHERE id = ?`). -/
def Db.findEscrow (db : Db) (id : Nat) : Option Escrow :=
  db.escrows.find? (fun e => e.id = id)

/-- `EscrowService::deduct_wallet`: read the balance (`fetch_one`), fail
with `InsufficientBalanceDetails` if it is below the amount, otherwise
write the new balance and append one transaction row with the negated
amount.  The new balance is computed in Rust `i64` arithmetic. -/
def deduct_wallet (db : Db) (user_npub : String) (amount : Int)
    (tx_type : String) (reference_id : Option Nat) :
    Except AppError Int × Db :=
  match db.users user_npub with
  | none => (.error .RowNotFound, db)
  | some current_balance =>
    if current_balance < amount then
      (.error (.InsufficientBalanceDetails amount current_balance), db)
    else
      let new_balance := wrap64 (current_balance - amount)
      let db' : Db :=
        { db with
          users := fun u => if u = user_npub then some new_balance else db.users u
          txs := db.txs ++ [⟨user_npub, tx_type, -amount, new_balance, reference_id⟩] }
      (.ok new_balance, db')

/-- `EscrowService::credit_wallet`: read the balance, write the increased
balance, append one transaction row with the positive amount.  It has no
failure path other than the user row being absent. -/
def credit_wallet (db : Db) (user_npub : String) (amount : Int)
    (tx_type : String) (reference_id : Option Nat) :
    Except AppError Int × Db :=
  match db.users user_npub with
  | none => (.error .RowNotFound, db)
  | some current_balance =>
    let new_balance := wrap64 (current_balance + amount)
    let db' : Db :=
      { db with
        users := fun u => if u = user_npub then some new_balance else db.users u
        txs := db.txs ++ [⟨user_npub, tx_type, amount, new_balance, reference_id⟩] }
    (.ok new_balance, db')

/-- `EscrowService::create_escrow`: INSERT the `'held'` escrow row with
`auto_release_at = now + days`, THEN deduct the buyer's wallet, then
re-fetch the inserted row.  There is no transaction around the two
writes: when the deduction fails the insert is not rolled back. -/
def create_escrow (db : Db) (buyer_npub seller_npub : String) (amount : Int)
    (escrow_days : Nat) (id : Nat) (now : Int) :
    Except AppError Escrow × Db :=
  let auto_release_at := now + (escrow_days : Int) * 86400
  let row : Escrow :=
    ⟨id, buyer_npub, seller_npub, amount, "held", auto_release_at, now, none⟩
  let db1 : Db := { db with escrows := db.escrows ++ [row] }
  match deduct_wallet db1 buyer_npub amount ("escrow_hold") (some id) with
  | (.error e, db2) => (.error e, db2)
  | (.ok _, db2) =>
    match db2.findEscrow id with
    | none => (.error .RowNotFound, db2)
    | some escrow => (.ok escrow, db2)

/-- `EscrowService::release_escrow`: fetch the escrow (`EscrowNotFound` if
absent), guard on `status_enum() == Held` (`EscrowAlreadyReleased`
otherwise), set the status to `'released'`, credit the seller the full
amount, and mark the linked order completed.  The status update runs
before the credit, so a failing credit leaves the status already
changed. -/
def release_escrow (db : Db) (escrow_id : Nat) (now : Int) :
    Except AppError Unit × Db :=
  match db.findEscrow escrow_id with
  | none => (.error .EscrowNotFound, db)
  | some escrow =>
    if escrow.status_enum ≠ EscrowStatus.Held then
      (.error .EscrowAlreadyReleased, db)
    else
      let db1 : Db :=
        { db with
          escrows := db.escrows.map fun e =>
            if e.id = escrow_id then
              { e with status := "released", resolved_at := some now }
            else e }
      match credit_wallet db1 escrow.seller_npub escrow.amount
          "escrow_release" (some escrow_id) with
      | (.error e, db2) => (.error e, db2)
      | (.ok _, db2) =>
        let db3 : Db :=
          { db2 with
            orders := db2.orders.map fun o =>
              if o.escrow_id = escrow_id then
                { o with status := "completed", completed_at := some now }
              else o }
        (.ok (), db3)

/-- `EscrowService::resolve_dispute`: valid only when `status_enum()` is
`Disputed` (note the error is `EscrowNotFound`); computes the two shares,
rewrites the escrow status (`'refunded'` for BuyerFull, `'released'`
otherwise), credits each strictly positive share, then sets the linked
order to `'refunded'` for BuyerFull and `'completed'` otherwise. -/
def resolve_dispute (db : Db) (escrow_id : Nat)
    (resolution : DisputeResolution) (now : Int) :
    Except AppError Unit × Db :=
  match db.findEscrow escrow_id with
  | none => (.error .EscrowNotFound, db)
  | some escrow =>
    if escrow.status_enum ≠ EscrowStatus.Disputed then
      (.error .EscrowNotFound, db)
    else
      let amounts := resolution.calculate_amounts escrow.amount
      let buyer_amount := amounts.1
      let seller_amount := amounts.2
      let new_status :=
        match resolution with
        | .BuyerFull => "refunded"
        | .SellerFull => "released"
        | .Split _ _ => "released"
        | .Burn => "released"
      let db1 : Db :=
        { db with
          escrows := db.escrows.map fun e =>
            if e.id = escrow_id then
              { e with status := new_status, resolved_at := some now }
            else e }
      let step2 : Except AppError Unit × Db :=
        if buyer_amount > 0 then
          match credit_wallet db1 escrow.buyer_npub buyer_amount
              "escrow_refund" (some escrow_id) with
          | (.error e, db2) => (.error e, db2)
          | (.ok _, db2) => (.ok (), db2)
        else (.ok (), db1)
      match step2 with
      | (.error e, db2) => (.error e, db2)
      | (.ok _, db2) =>
        let step3 : Except AppError Unit × Db :=
          if seller_amount > 0 then
            match credit_wallet db2 escrow.seller_npub seller_amount
                "escrow_release" (some escrow_id) with
            | (.error e, db3) => (.error e, db3)
            | (.ok _, db3) => (.ok (), db3)
          else (.ok (), db2)
        match step3 with
        | (.error e, db3) => (.error e, db3)
        | (.ok _, db3) =>
          let order_status :=
            match resolution with
            | .BuyerFull => "refunded"
            | _ => "completed"
          let db4 : Db :=
            { db3 with
              orders := db3.orders.map fun o =>
                if o.escrow_id = escrow_id then
                  { o with status := order_status, completed_at := some now }
                else o }
          (.ok (), db4)

/-- `EscrowService::mark_disputed`: a single conditional UPDATE
(`WHERE id = ? AND status = 'held'`, a raw string comparison) that always
reports success, whether or not any row matched. -/
def mark_disputed (db : Db) (escrow_id : Nat) : Except AppError Unit × Db :=
  (.ok (),
   { db with
     escrows := db.escrows.map fun e =>
       if e.id = escrow_id ∧ e.status = "held" then
         { e with status := "disputed" }
       else e })

/-- `EscrowService::get_pending_auto_releases`: the rows with raw status
string `'held'` and `auto_release_at <= CURRENT_TIMESTAMP`. -/
def get_pending_auto_releases (db : Db) (now : Int) : List Escrow :=
  db.escrows.filter fun e => e.status = "held" && decide (e.auto_release_at ≤ now)

/-- The loop body of `EscrowService::process_auto_releases`: walk the
queried snapshot, re-check `status_enum() == Held` on the snapshot row,
call `release_escrow`, and count only the `Ok` outcomes — an `Err`
outcome keeps whatever state the failed release left and continues with
the rest of the batch. -/
def auto_release_loop (now : Int) : Db → List Escrow → Nat → Nat × Db
  | db, [], released => (released, db)
  | db, e :: rest, released =>
    if e.status_enum = EscrowStatus.Held then
      match release_escrow db e.id now with
      | (.ok _, db') => auto_release_loop now db' rest (released + 1)
      | (.error _, db') => auto_release_loop now db' rest released
    else
      auto_release_loop now db rest released

/-- `EscrowService::process_auto_releases`: query the due held escrows,
release each, return the count of successful releases. -/
def process_auto_releases (db : Db) (now : Int) : Except AppError Nat × Db :=
  let result := auto_release_loop now db (get_pending_auto_releases db now) 0
  (.ok result.1, result.2)

/-- The `HashMap`-based grouping of checkout items by seller in the
`checkout` handler, modelled in first-appearance order (the map's
iteration order is unspecified; only the grouping itself matters). -/
def addToGroup : List (String × List CheckoutItem) → CheckoutItem →
    List (String × List CheckoutItem)
  | [], it => [(it.seller_npub, [it])]
  | (s, its) :: rest, it =>
    if s = it.seller_npub then (s, its ++ [it]) :: rest
    else (s, its) :: addToGroup rest it

/-- Group a checkout-item list by seller npub. -/
def groupBySeller (items : List CheckoutItem) : List (String × List CheckoutItem) :=
  items.foldl addToGroup []

/-- The per-seller fan-out at the end of `checkout` (`src/routes/cart.rs`):
for each seller group, `create_escrow` for the group's price sum, then
insert one `'pending'` order and its order items.  Escrow and order ids
are drawn from the `fresh` counter (two per group), standing in for the
generated uuids.  A failing `create_escrow` propagates with `?`,
abandoning the remaining groups but keeping all writes made so far. -/
def checkout_fanout (buyer : String) (checkout_id : Nat) (escrow_days : Nat)
    (now : Int) : Db → Nat → List (String × List CheckoutItem) →
    Except AppError Unit × Db
  | db, _, [] => (.ok (), db)
  | db, fresh, (seller, its) :: rest =>
    let seller_total := (its.map fun i => i.locked_price).sum
    match create_escrow db buyer seller seller_total escrow_days fresh now with
    | (.error e, db') => (.error e, db')
    | (.ok escrow, db') =>
      let order_id := fresh + 1
      let db'' : Db :=
        { db' with
          orders := db'.orders ++
            [⟨order_id, checkout_id, buyer, seller, escrow.id, "pending", none, now⟩]
          order_items := db'.order_items ++
            its.map fun it => ⟨order_id, it.listing_id, it.locked_price, it.encrypted_shipping⟩ }
      checkout_fanout buyer checkout_id escrow_days now db'' (fresh + 2) rest

/-- The `checkout` handler (`src/routes/cart.rs`), after authentication:
find the user's pending unexpired session (else `PriceLockExpired`);
for `"wallet"` payment, check the balance against `total + fee` and run
`UPDATE users SET wallet_balance = wallet_balance - ?` — with NO
`wallet_transactions` insert; for `"external"` payment, take the
externally validated token amount (`token_amount` models the value
`cashu.receive_tokens` returned) and credit any overpayment, again with
no transaction row.  Then mark the session paid, fan out escrows and
orders per seller (each `create_escrow` debits the buyer AGAIN, with a
logged `escrow_hold` row), and clear the cart. -/
def checkout (db : Db) (buyer : String) (payment_method : String)
    (token_amount : Option Int) (escrow_days : Nat) (fresh : Nat) (now : Int) :
    Except AppError Unit × Db :=
  match db.users buyer with
  | none => (.error .RowNotFound, db)
  | some balance =>
    match db.sessions.find? (fun s =>
        s.user_npub = buyer && s.status = "pending" && decide (now < s.expires_at)) with
    | none => (.error .PriceLockExpired, db)
    | some session =>
      let total := session.total_amount + session.fee_amount
      let paid : Except AppError Unit × Db :=
        if payment_method = "wallet" then
          if balance < total then
            (.error (.InsufficientBalanceDetails total balance), db)
          else
            (.ok (),
             { db with users := fun u =>
                 if u = buyer then some (balance - total) else db.users u })
        else if payment_method = "external" then
          match token_amount with
          | none => (.error .InvalidCashuToken, db)
          | some amt =>
            if amt < total then
              (.error (.InsufficientBalanceDetails total amt), db)
            else if amt > total then
              (.ok (),
               { db with users := fun u =>
                   if u = buyer then some (balance + (amt - total)) else db.users u })
            else (.ok (), db)
        else (.error .PaymentFailed, db)
      match paid with
      | (.error e, db1) => (.error e, db1)
      | (.ok _, db1) =>
        let db2 : Db :=
          { db1 with sessions := db1.sessions.map fun s =>
              if s.id = session.id then
                { s with status := "paid", paid_at := some now }
              else s }
        let items := db2.checkout_items.filter fun it => it.checkout_id = session.id
        match checkout_fanout buyer session.id escrow_days now db2 fresh
            (groupBySeller items) with
        | (.error e, db3) => (.error e, db3)
        | (.ok _, db3) =>
          (.ok (), { db3 with cart_items :=
            db3.cart_items.filter fun c => ¬ c.user_npub = buyer })

/-- The admin `resolve_dispute` handler (`src/routes/admin.rs`), after the
authentication and admin check: fetch the dispute (`DisputeNotFound`),
require it open (`DisputeAlreadyResolved`), parse the resolution string
(`InvalidResolution`), delegate to `EscrowService::resolve_dispute`, then
persist resolution, notes, resolver and resolved time on the dispute. -/
def admin_resolve_dispute (db : Db) (dispute_id : Nat)
    (resolution_str : List Char) (notes : Option (List Char))
    (resolver : String) (now : Int) : Except AppError Unit × Db :=
  match db.disputes.find? (fun d => d.id = dispute_id) with
  | none => (.error .DisputeNotFound, db)
  | some dispute =>
    if ¬ dispute.is_open then (.error .DisputeAlreadyResolved, db)
    else
      match DisputeResolution.from_str resolution_str with
      | none => (.error .InvalidResolution, db)
      | some resolution =>
        match resolve_dispute db dispute.escrow_id resolution now with
        | (.error e, db') => (.error e, db')
        | (.ok _, db') =>
          (.ok (),
           { db' with disputes := db'.disputes.map fun d =>
               if d.id = dispute_id then
                 { d with
                   status := "resolved"
                   resolution := some resolution_str
                   resolution_notes := notes
                   resolved_by := some resolver
                   resolved_at := some now }
               else d })

/-! Concrete stores used by the evaluation theorems. -/

/-- The empty store. -/
def emptyDb : Db :=
  ⟨fun _ => none, [], [], [], [], [], [], [], []⟩

/-- Store with one user `"alice"` holding balance 0. -/
def dbPoor : Db :=
  { emptyDb with users := fun u => if u = "alice" then some 0 else none }

/-- Store for the checkout evaluation: `"alice"` holds 200 sats and has a
pending checkout session (total 100, fee 0, unexpired at time 0) with one
item of seller `"bob"` locked at 100. -/
def dbCheckout : Db :=
  { emptyDb with
    users := fun u => if u = "alice" then some 200 else none
    sessions := [⟨1, "alice", "pending", 100, 0, 10, none⟩]
    checkout_items := [⟨1, 5, "bob", 100, none⟩] }

/-- An open dispute whose `auto_resolve_at` lies 7 days and 1 hour
(608400 seconds) after time 0, warning never sent. -/
def disputeSevenDaysOneHour : Dispute :=
  ⟨1, 1, 1, "alice", "item not received", "open", none, none, none, none,
   608400, 0, none⟩

/-- C1: `createEscrow` with a failing debit is claimed to create no escrow
record and leave all state exactly as before.  Evaluating the code at
buyer `"alice"` with balance 0 and amount 100: the debit fails with
`InsufficientBalance(needed 100, available 0)` as claimed, but the
`'held'` escrow row inserted before the debit persists — the operation is
not all-or-nothing. -/
theorem create_escrow_orphan_row_on_failed_debit :
    (create_escrow dbPoor ("alice") ("bob") 100 7 1 0).1 =
      .error (.InsufficientBalanceDetails 100 0) ∧
    dbPoor.findEscrow 1 = none ∧
    (create_escrow dbPoor ("alice") ("bob") 100 7 1 0).2.findEscrow 1 =
      some ⟨1, "alice", "bob", 100, "held", 604800, 0, none⟩ ∧
    (create_escrow dbPoor ("alice") ("bob") 100 7 1 0).2.txs = [] ∧
    (create_escrow dbPoor ("alice") ("bob") 100 7 1 0).2.users ("alice") = some 0 := by
  refine ⟨rfl, rfl, rfl, rfl, rfl⟩

/-- C2: every balance-changing operation is claimed to append exactly one
`WalletTransaction` whose delta equals the balance change, so that final
balance = initial balance + sum of logged deltas.  Evaluating `checkout`
with wallet payment (balance 200, session total 100, one seller group of
100): the handler's own debit of 100 writes no transaction row, and
`create_escrow` then debits a second 100 with one logged row — the
operation succeeds, the balance moves 200 → 0, yet the only logged delta
is −100, so 200 + Σ deltas = 100 ≠ 0. -/
theorem checkout_unlogged_balance_change :
    (checkout dbCheckout ("alice") ("wallet") none 7 10 0).1 = .ok () ∧
    dbCheckout.users ("alice") = some 200 ∧
    dbCheckout.txs = [] ∧
    (checkout dbCheckout ("alice") ("wallet") none 7 10 0).2.users ("alice") = some 0 ∧
    (checkout dbCheckout ("alice") ("wallet") none 7 10 0).2.txs =
      [⟨"alice", "escrow_hold", -100, 0, some 10⟩] ∧
    (200 : Int) +
      (((checkout dbCheckout ("alice") ("wallet") none 7 10 0).2.txs.map
        fun t => t.amount).sum) ≠ 0 := by
  refine ⟨rfl, rfl, rfl, rfl, rfl, by decide⟩

/-- C3: resolution parsing is claimed to accept splits only when the two
percentages sum to exactly 100.  The sum check is Rust `u8` addition, so
`"split_200_156"` — whose percentages sum to 356 — wraps to 100 and is
accepted; `calculate_amounts` then pays 200 + 156 = 356 out of a
100-sat escrow.  The well-formed cases behave as claimed, including the
rejection of `"split_50_40"`. -/
theorem from_str_accepts_u8_overflow_split :
    DisputeResolution.from_str ("split_200_156".data) =
      some (.Split 200 156) ∧
    (200 : Nat) + 156 ≠ 100 ∧
    (DisputeResolution.calculate_amounts (.Split 200 156) 100).1 = 200 ∧
    (DisputeResolution.calculate_amounts (.Split 200 156) 100).2 = 156 ∧
    DisputeResolution.from_str ("split_50_40".data) = none ∧
    DisputeResolution.from_str ("buyer_full".data) = some .BuyerFull ∧
    DisputeResolution.from_str ("seller_full".data) = some .SellerFull ∧
    DisputeResolution.from_str ("burn".data) = some .Burn ∧
    DisputeResolution.from_str ("split_70_30".data) = some (.Split 70 30) := by
  refine ⟨by decide, by decide, by decide, by decide, by decide,
    by decide, by decide, by decide, by decide⟩

/-- C4 counterexample: conservation is claimed for every resolution value,
but the `Split` payload is a pair of arbitrary `u8` percentages; at
`Split{100%, 100%}` with escrow amount 1 the computed shares sum to 2 > 1. -/
theorem calculate_amounts_split_100_100_overpays :
    (DisputeResolution.calculate_amounts (.Split 100 100) 1).1 +
      (DisputeResolution.calculate_amounts (.Split 100 100) 1).2 > 1 := by
  decide

/-- C8 counterexample: `shouldSendWarning` is claimed to require
`autoResolveAt − now ≤ 7 days`, but the code compares chrono's whole-day
count with 7; at a distance of 7 days + 1 hour (608400 s > 604800 s) the
predicate is already true. -/
theorem should_send_warning_beyond_seven_days :
    disputeSevenDaysOneHour.should_send_warning 0 = true ∧
    ¬(disputeSevenDaysOneHour.auto_resolve_at - 0 ≤ 7 * 86400) := by
  refine ⟨by decide, by decide⟩

/-! Arithmetic helper lemmas. -/

/-- The `i64` wrap is the identity on values already in range. -/
theorem wrap64_eq_self {x : Int} (h1 : -(2 ^ 63) ≤ x) (h2 : x < 2 ^ 63) :
    wrap64 x = x := by
  unfold wrap64
  omega

/-- Truncating division of a signed second count by 86400 is at most 7
exactly on durations strictly below 8 days. -/
theorem tdiv_86400_le_seven (d : Int) : d.tdiv 86400 ≤ 7 ↔ d < 691200 := by
  rcases d with n | n
  · show Int.ofNat (n / 86400) ≤ 7 ↔ Int.ofNat n < 691200
    rw [Int.ofNat_eq_natCast, Int.ofNat_eq_natCast]
    omega
  · show -Int.ofNat ((n + 1) / 86400) ≤ 7 ↔ Int.negSucc n < 691200
    rw [Int.negSucc_eq, Int.ofNat_eq_natCast]
    omega

/-- Truncating division agrees with floor division on nonnegative
arguments. -/
theorem tdiv_eq_natDiv (m n : Nat) :
    ((m : Int)).tdiv ((n : Int)) = ((m / n : Nat) : Int) := rfl

/-- Specialisation of `tdiv_eq_natDiv` to the literal divisor 100. -/
theorem tdiv_cast_hundred (m : Nat) :
    ((m : Int)).tdiv (100 : Int) = ((m / 100 : Nat) : Int) := rfl

/-- C8 (amended): `shouldSendWarning` is true exactly when the dispute is
Open, the warning is unsent, and `autoResolveAt − now` is strictly less
than 8 days — the code compares chrono's truncated whole-day count with
7, so every duration in `(7 days, 8 days)` also qualifies. -/
theorem should_send_warning_characterization (d : Dispute) (now : Int) :
    d.should_send_warning now = true ↔
      d.is_open = true ∧ d.warning_sent_at = none ∧
        d.auto_resolve_at - now < 8 * 86400 := by
  unfold Dispute.should_send_warning
  simp only [Bool.and_eq_true, decide_eq_true_eq, Option.isNone_iff_eq_none]
  rw [tdiv_86400_le_seven]
  constructor
  · rintro ⟨⟨h1, h2⟩, h3⟩
    exact ⟨h1, h2, by omega⟩
  · rintro ⟨h1, h2, h3⟩
    exact ⟨⟨h1, h2⟩, by omega⟩

/-- C4 (amended): conservation of `calculate_amounts`, for resolutions
whose split percentages sum to at most 100 and totals for which the
`i64` products do not overflow: both shares are nonnegative, they sum to
at most the escrow total (the difference being the destroyed remainder),
and the split shares are exactly the floored products. -/
theorem calculate_amounts_conservation (r : DisputeResolution) (T : Int)
    (hT : 0 ≤ T) (hbound : T * 100 < 2 ^ 63)
    (hsplit : ∀ b s, r = .Split b s → b.val + s.val ≤ 100) :
    0 ≤ (r.calculate_amounts T).1 ∧ 0 ≤ (r.calculate_amounts T).2 ∧
    (r.calculate_amounts T).1 + (r.calculate_amounts T).2 ≤ T ∧
    (∀ b s, r = .Split b s →
      (r.calculate_amounts T).1 = (T * (b.val : Int)).tdiv 100 ∧
      (r.calculate_amounts T).2 = (T * (s.val : Int)).tdiv 100) := by
  cases r with
  | BuyerFull =>
    refine ⟨hT, le_refl 0, by simp [DisputeResolution.calculate_amounts], ?_⟩
    intro b s h
    cases h
  | SellerFull =>
    refine ⟨le_refl 0, hT, by simp [DisputeResolution.calculate_amounts], ?_⟩
    intro b s h
    cases h
  | Burn =>
    refine ⟨le_refl 0, le_refl 0, by simp [DisputeResolution.calculate_amounts]; omega, ?_⟩
    intro b s h
    cases h
  | Split b s =>
    have hbs : b.val + s.val ≤ 100 := hsplit b s rfl
    obtain ⟨t, rfl⟩ := Int.eq_ofNat_of_zero_le hT
    have hb63 : (t : Int) * (b.val : Int) < 2 ^ 63 := by
      calc (t : Int) * (b.val : Int) ≤ (t : Int) * 100 := by
            apply mul_le_mul_of_nonneg_left _ (by exact_mod_cast Nat.zero_le t)
            exact_mod_cast Nat.le_trans (Nat.le_add_right _ _) hbs
        _ < 2 ^ 63 := hbound
    have hs63 : (t : Int) * (s.val : Int) < 2 ^ 63 := by
      calc (t : Int) * (s.val : Int) ≤ (t : Int) * 100 := by
            apply mul_le_mul_of_nonneg_left _ (by exact_mod_cast Nat.zero_le t)
            exact_mod_cast Nat.le_trans (Nat.le_add_left _ _) hbs
        _ < 2 ^ 63 := hbound
    have hbn : (0 : Int) ≤ (t : Int) * (b.val : Int) := by positivity
    have hsn : (0 : Int) ≤ (t : Int) * (s.val : Int) := by positivity
    have hwb : wrap64 ((t : Int) * (b.val : Int)) = (t : Int) * (b.val : Int) :=
      wrap64_eq_self (by omega) hb63
    have hws : wrap64 ((t : Int) * (s.val : Int)) = (t : Int) * (s.val : Int) :=
      wrap64_eq_self (by omega) hs63
    have hcastb : (t : Int) * (b.val : Int) = ((t * b.val : Nat) : Int) := by
      push_cast
      ring
    have hcasts : (t : Int) * (s.val : Int) = ((t * s.val : Nat) : Int) := by
      push_cast
      ring
    have hsum : t * b.val / 100 + t * s.val / 100 ≤ t := by
      calc t * b.val / 100 + t * s.val / 100
          ≤ (t * b.val + t * s.val) / 100 := Nat.add_div_le_add_div _ _ _
        _ = t * (b.val + s.val) / 100 := by rw [Nat.mul_add]
        _ ≤ t * 100 / 100 := Nat.div_le_div_right (Nat.mul_le_mul_left t hbs)
        _ = t := Nat.mul_div_cancel t (by norm_num)
    have hcalc : DisputeResolution.calculate_amounts (.Split b s) ((t : Nat) : Int) =
        (((t * b.val / 100 : Nat) : Int), ((t * s.val / 100 : Nat) : Int)) := by
      simp only [DisputeResolution.calculate_amounts]
      rw [hwb, hws, hcastb, hcasts, tdiv_cast_hundred, tdiv_cast_hundred]
    rw [hcalc]
    refine ⟨?_, ?_, ?_, ?_⟩
    · show (0 : Int) ≤ ((t * b.val / 100 : Nat) : Int)
      exact_mod_cast Nat.zero_le _
    · show (0 : Int) ≤ ((t * s.val / 100 : Nat) : Int)
      exact_mod_cast Nat.zero_le _
    · show ((t * b.val / 100 : Nat) : Int) + ((t * s.val / 100 : Nat) : Int) ≤ ((t : Nat) : Int)
      exact_mod_cast hsum
    · intro b' s' h
      injection h with hb' hs'
      subst hb'
      subst hs'
      refine ⟨?_, ?_⟩
      · show ((t * b.val / 100 : Nat) : Int) = ((t : Int) * (b.val : Int)).tdiv 100
        rw [hcastb, tdiv_cast_hundred]
      · show ((t * s.val / 100 : Nat) : Int) = ((t : Int) * (s.val : Int)).tdiv 100
        rw [hcasts, tdiv_cast_hundred]

/-- C4 witness: the amended conservation theorem instantiated at the
scenario-B split 70/30 on a 100-sat escrow. -/
theorem calculate_amounts_conservation_witness :
    0 ≤ (DisputeResolution.calculate_amounts (.Split 70 30) 100).1 ∧
    0 ≤ (DisputeResolution.calculate_amounts (.Split 70 30) 100).2 ∧
    (DisputeResolution.calculate_amounts (.Split 70 30) 100).1 +
      (DisputeResolution.calculate_amounts (.Split 70 30) 100).2 ≤ 100 ∧
    (∀ b s, DisputeResolution.Split 70 30 = .Split b s →
      (DisputeResolution.calculate_amounts (.Split 70 30) 100).1 =
        ((100 : Int) * (b.val : Int)).tdiv 100 ∧
      (DisputeResolution.calculate_amounts (.Split 70 30) 100).2 =
        ((100 : Int) * (s.val : Int)).tdiv 100) :=
  calculate_amounts_conservation (.Split 70 30) 100 (by norm_num) (by norm_num)
    (by intro b s h; cases h; decide)

/-- C9: every status string other than the three recognised ones decodes
to `Held`; an escrow row carrying such a string therefore passes the
`can_release` and `can_refund` guards, and `release_escrow` on it
succeeds and moves the escrowed funds to the seller (one
`escrow_release` ledger row for the full amount). -/
theorem unknown_status_string_is_held (s : String)
    (h1 : s ≠ "released") (h2 : s ≠ "refunded") (h3 : s ≠ "disputed") :
    EscrowStatus.fromString s = .Held ∧
    (∀ e : Escrow, e.status = s → e.can_release = true ∧ e.can_refund = true) ∧
    (∀ (db : Db) (e : Escrow) (bal now : Int), db.findEscrow e.id = some e →
      e.status = s → db.users e.seller_npub = some bal →
      (release_escrow db e.id now).1 = .ok () ∧
      (release_escrow db e.id now).2.txs = db.txs ++
        [⟨e.seller_npub, "escrow_release", e.amount,
          wrap64 (bal + e.amount), some e.id⟩]) := by
  have hH : EscrowStatus.fromString s = .Held := by
    unfold EscrowStatus.fromString
    rw [if_neg h1, if_neg h2, if_neg h3]
  refine ⟨hH, ?_, ?_⟩
  · intro e he
    constructor
    · unfold Escrow.can_release Escrow.status_enum
      rw [he, hH]
      decide
    · unfold Escrow.can_refund Escrow.status_enum
      rw [he, hH]
      decide
  · intro db e bal now hfind he hbal
    have hst : e.status_enum = .Held := by
      unfold Escrow.status_enum
      rw [he, hH]
    simp only [release_escrow, hfind, hst, ne_eq, not_true_eq_false, if_false,
      credit_wallet, hbal]
    exact ⟨trivial, trivial⟩

/-- C9 witness: a store holding one escrow whose status string is the
corrupted value `"CORRUPTED"`. -/
theorem unknown_status_string_is_held_witness :
    EscrowStatus.fromString ("CORRUPTED") = .Held ∧
    (∀ e : Escrow, e.status = "CORRUPTED" →
      e.can_release = true ∧ e.can_refund = true) ∧
    (∀ (db : Db) (e : Escrow) (bal now : Int), db.findEscrow e.id = some e →
      e.status = "CORRUPTED" → db.users e.seller_npub = some bal →
      (release_escrow db e.id now).1 = .ok () ∧
      (release_escrow db e.id now).2.txs = db.txs ++
        [⟨e.seller_npub, "escrow_release", e.amount,
          wrap64 (bal + e.amount), some e.id⟩]) :=
  unknown_status_string_is_held ("CORRUPTED") (by decide) (by decide) (by decide)

/-- C10: `markDisputed` on an id absent from the store reports success
and leaves the store untouched; its result is `Ok` on every store, so a
missing escrow is indistinguishable from a non-Held one. -/
theorem mark_disputed_missing_escrow :
    (∀ (db : Db) (id : Nat), db.findEscrow id = none →
      mark_disputed db id = (.ok (), db)) ∧
    (∀ (db : Db) (id : Nat), (mark_disputed db id).1 = .ok ()) := by
  constructor
  · intro db id h
    unfold mark_disputed
    have hall : ∀ e ∈ db.escrows, ¬(e.id = id) := by
      intro e he
      have := List.find?_eq_none.mp h e he
      simpa using this
    have hmap : db.escrows.map (fun e =>
        if e.id = id ∧ e.status = "held" then { e with status := "disputed" }
        else e) = db.escrows := by
      conv_rhs => rw [← List.map_id db.escrows]
      apply List.map_congr_left
      intro e he
      rw [if_neg]
      · rfl
      · exact fun hc => hall e he hc.1
    rw [hmap]
  · intro db id
    rfl

/-- C10 witness: the empty store contains no escrow with id 1. -/
theorem mark_disputed_missing_escrow_witness :
    mark_disputed emptyDb 1 = (.ok (), emptyDb) ∧
    (mark_disputed emptyDb 2).1 = .ok () :=
  ⟨mark_disputed_missing_escrow.1 emptyDb 1 rfl,
   mark_disputed_missing_escrow.2 emptyDb 2⟩

/-- Membership of an integer in the `i64` range (no overflow). -/
def In64 (x : Int) : Prop :=
  -(2 ^ 63) ≤ x ∧ x < 2 ^ 63

/-- Store with one held escrow (1000 sats, buyer `"alice"`, seller
`"bob"`) and its pending order, both parties at balance 0. -/
def dbHeld : Db :=
  { emptyDb with
    users := fun u => if u = "bob" then some 0
      else if u = "alice" then some 0 else none
    escrows := [⟨1, "alice", "bob", 1000, "held", 5, 0, none⟩]
    orders := [⟨2, 1, "alice", "bob", 1, "pending", none, 0⟩] }

/-- Store with one already-released escrow. -/
def dbReleased : Db :=
  { emptyDb with escrows := [⟨1, "alice", "bob", 1000, "released", 5, 0, some 3⟩] }

/-- C6: `release` on an escrow whose decoded status is not `Held` fails
with `EscrowAlreadyReleased` and returns the store exactly as it was; on
a `Held` escrow it succeeds, credits the seller the full amount with one
`escrow_release` ledger row, marks the escrow `'released'`, and marks
the linked order `'completed'`. -/
theorem release_escrow_guard_and_effects :
    (∀ (db : Db) (id : Nat) (now : Int) (e : Escrow),
      db.findEscrow id = some e → e.status_enum ≠ .Held →
      release_escrow db id now = (.error .EscrowAlreadyReleased, db)) ∧
    (∀ (db : Db) (id : Nat) (now : Int) (e : Escrow) (bal : Int),
      db.findEscrow id = some e → e.status_enum = .Held →
      db.users e.seller_npub = some bal → In64 (bal + e.amount) →
      (release_escrow db id now).1 = .ok () ∧
      (release_escrow db id now).2.escrows = db.escrows.map (fun x =>
        if x.id = id then { x with status := "released", resolved_at := some now }
        else x) ∧
      (release_escrow db id now).2.users e.seller_npub = some (bal + e.amount) ∧
      (release_escrow db id now).2.txs = db.txs ++
        [⟨e.seller_npub, "escrow_release", e.amount, bal + e.amount, some id⟩] ∧
      (release_escrow db id now).2.orders = db.orders.map (fun o =>
        if o.escrow_id = id then
          { o with status := "completed", completed_at := some now }
        else o)) := by
  constructor
  · intro db id now e hfind hne
    simp only [release_escrow, hfind]
    rw [if_pos hne]
  · intro db id now e bal hfind hst hbal hin
    have hw : wrap64 (bal + e.amount) = bal + e.amount :=
      wrap64_eq_self hin.1 hin.2
    simp only [release_escrow, hfind, hst, ne_eq, not_true_eq_false, if_false,
      credit_wallet, hbal, hw]
    simp

/-- C6 witness: the guard evaluated on the released store, the release
effects evaluated on the held store. -/
theorem release_escrow_guard_and_effects_witness :
    release_escrow dbReleased 1 7 = (.error .EscrowAlreadyReleased, dbReleased) ∧
    ((release_escrow dbHeld 1 7).1 = .ok () ∧
     (release_escrow dbHeld 1 7).2.escrows = dbHeld.escrows.map (fun x =>
       if x.id = 1 then { x with status := "released", resolved_at := some 7 }
       else x) ∧
     (release_escrow dbHeld 1 7).2.users ("bob") = some (0 + 1000) ∧
     (release_escrow dbHeld 1 7).2.txs = dbHeld.txs ++
       [⟨"bob", "escrow_release", 1000, 0 + 1000, some 1⟩] ∧
     (release_escrow dbHeld 1 7).2.orders = dbHeld.orders.map (fun o =>
       if o.escrow_id = 1 then
         { o with status := "completed", completed_at := some 7 }
       else o)) :=
  ⟨release_escrow_guard_and_effects.1 dbReleased 1 7
     ⟨1, "alice", "bob", 1000, "released", 5, 0, some 3⟩ rfl (by decide),
   release_escrow_guard_and_effects.2 dbHeld 1 7
     ⟨1, "alice", "bob", 1000, "held", 5, 0, none⟩ 0 rfl (by decide) rfl
     ⟨by norm_num, by norm_num⟩⟩

/-- Share bounds: for totals in `[0, 2^40]` both computed shares lie in
`[0, 3·T]`, whatever the resolution (split percentages are `u8`, so at
most 255%). -/
theorem calculate_amounts_bounds (r : DisputeResolution) (T : Int)
    (h0 : 0 ≤ T) (h1 : T ≤ 2 ^ 40) :
    0 ≤ (r.calculate_amounts T).1 ∧ (r.calculate_amounts T).1 ≤ 3 * T ∧
    0 ≤ (r.calculate_amounts T).2 ∧ (r.calculate_amounts T).2 ≤ 3 * T := by
  have share_bound : ∀ p : Fin 256,
      0 ≤ (wrap64 (T * (p.val : Int))).tdiv 100 ∧
        (wrap64 (T * (p.val : Int))).tdiv 100 ≤ 3 * T := by
    intro p
    obtain ⟨t, rfl⟩ := Int.eq_ofNat_of_zero_le h0
    have hp : (p.val : Int) ≤ 255 := by
      have := p.isLt
      omega
    have hprod0 : (0 : Int) ≤ (t : Int) * (p.val : Int) := by positivity
    have hprod : (t : Int) * (p.val : Int) < 2 ^ 63 := by
      calc (t : Int) * (p.val : Int) ≤ (t : Int) * 255 := by
            apply mul_le_mul_of_nonneg_left hp
            exact_mod_cast Nat.zero_le t
        _ ≤ 2 ^ 40 * 255 := by
            apply mul_le_mul_of_nonneg_right h1
            norm_num
        _ < 2 ^ 63 := by norm_num
    have hw : wrap64 ((t : Int) * (p.val : Int)) = (t : Int) * (p.val : Int) :=
      wrap64_eq_self (by omega) hprod
    have hcast : (t : Int) * (p.val : Int) = ((t * p.val : Nat) : Int) := by
      push_cast
      ring
    rw [hw, hcast, tdiv_cast_hundred]
    have hdiv : t * p.val / 100 ≤ 3 * t := by
      calc t * p.val / 100 ≤ t * 300 / 100 := by
            apply Nat.div_le_div_right
            apply Nat.mul_le_mul_left
            have := p.isLt
            omega
        _ = 3 * t := by
            rw [show t * 300 = 3 * t * 100 by ring]
            exact Nat.mul_div_cancel _ (by norm_num)
    constructor
    · exact_mod_cast Nat.zero_le _
    · exact_mod_cast hdiv
  cases r with
  | BuyerFull =>
    simp only [DisputeResolution.calculate_amounts]
    refine ⟨h0, by omega, le_refl 0, by omega⟩
  | SellerFull =>
    simp only [DisputeResolution.calculate_amounts]
    refine ⟨le_refl 0, by omega, h0, by omega⟩
  | Burn =>
    simp only [DisputeResolution.calculate_amounts]
    refine ⟨le_refl 0, by omega, le_refl 0, by omega⟩
  | Split b s =>
    exact ⟨(share_bound b).1, (share_bound b).2, (share_bound s).1, (share_bound s).2⟩

/-- C5: `resolveDispute` fails with `EscrowNotFound` when the escrow is
missing or its status is not `Disputed`; on a `Disputed` escrow it
succeeds, credits each strictly positive share with one ledger row, sets
the escrow status to `'refunded'` for BuyerFull and `'released'`
otherwise, and the order status to `'refunded'` for BuyerFull and
`'completed'` otherwise.  The numeric hypotheses keep every balance and
amount in a range where the `i64` arithmetic cannot wrap. -/
theorem resolve_dispute_spec :
    (∀ (db : Db) (id : Nat) (r : DisputeResolution) (now : Int),
      db.findEscrow id = none →
      resolve_dispute db id r now = (.error .EscrowNotFound, db)) ∧
    (∀ (db : Db) (id : Nat) (r : DisputeResolution) (now : Int) (e : Escrow),
      db.findEscrow id = some e → e.status_enum ≠ .Disputed →
      resolve_dispute db id r now = (.error .EscrowNotFound, db)) ∧
    (∀ (db : Db) (id : Nat) (r : DisputeResolution) (now : Int) (e : Escrow)
        (bb sb : Int),
      db.findEscrow id = some e → e.status_enum = .Disputed →
      e.buyer_npub ≠ e.seller_npub →
      db.users e.buyer_npub = some bb → db.users e.seller_npub = some sb →
      0 ≤ e.amount → e.amount ≤ 2 ^ 40 →
      0 ≤ bb → bb ≤ 2 ^ 40 → 0 ≤ sb → sb ≤ 2 ^ 40 →
      (resolve_dispute db id r now).1 = .ok () ∧
      (resolve_dispute db id r now).2.escrows = db.escrows.map (fun x =>
        if x.id = id then
          { x with
            status := (if r = .BuyerFull then ("refunded") else ("released"))
            resolved_at := some now }
        else x) ∧
      (resolve_dispute db id r now).2.users e.buyer_npub =
        some (bb + (if (r.calculate_amounts e.amount).1 > 0 then
          (r.calculate_amounts e.amount).1 else 0)) ∧
      (resolve_dispute db id r now).2.users e.seller_npub =
        some (sb + (if (r.calculate_amounts e.amount).2 > 0 then
          (r.calculate_amounts e.amount).2 else 0)) ∧
      (resolve_dispute db id r now).2.txs = db.txs ++
        (if (r.calculate_amounts e.amount).1 > 0 then
          [⟨e.buyer_npub, "escrow_refund", (r.calculate_amounts e.amount).1,
            bb + (r.calculate_amounts e.amount).1, some id⟩] else []) ++
        (if (r.calculate_amounts e.amount).2 > 0 then
          [⟨e.seller_npub, "escrow_release", (r.calculate_amounts e.amount).2,
            sb + (r.calculate_amounts e.amount).2, some id⟩] else []) ∧
      (resolve_dispute db id r now).2.orders = db.orders.map (fun o =>
        if o.escrow_id = id then
          { o with
            status := (if r = .BuyerFull then ("refunded") else ("completed"))
            completed_at := some now }
        else o)) := by
  refine ⟨?_, ?_, ?_⟩
  · intro db id r now hfind
    simp only [resolve_dispute, hfind]
  · intro db id r now e hfind hne
    simp only [resolve_dispute, hfind]
    rw [if_pos hne]
  · intro db id r now e bb sb hfind hst hbuyer_seller hbb hsb h0 h1 hb0 hb1 hs0 hs1
    have hns : ¬(e.seller_npub = e.buyer_npub) := fun h => hbuyer_seller h.symm
    have hbounds := calculate_amounts_bounds r e.amount h0 h1
    have hwb : wrap64 (bb + (r.calculate_amounts e.amount).1) =
        bb + (r.calculate_amounts e.amount).1 := by
      apply wrap64_eq_self
      · omega
      · omega
    have hws : wrap64 (sb + (r.calculate_amounts e.amount).2) =
        sb + (r.calculate_amounts e.amount).2 := by
      apply wrap64_eq_self
      · omega
      · omega
    cases r with
    | BuyerFull =>
      simp only [DisputeResolution.calculate_amounts] at hwb hws ⊢
      by_cases hba : e.amount > 0
      · simp only [resolve_dispute, hfind, hst, ne_eq, not_true_eq_false, if_false,
          DisputeResolution.calculate_amounts, hba, if_true, credit_wallet, hbb,
          hns, if_neg, hwb, hsb]
        simp [hba, hbuyer_seller, hns, hwb, hbb, hsb]
      · simp only [resolve_dispute, hfind, hst, ne_eq, not_true_eq_false, if_false,
          DisputeResolution.calculate_amounts, hba, if_false]
        simp [hba, hbb, hsb]
    | SellerFull =>
      simp only [DisputeResolution.calculate_amounts] at hwb hws ⊢
      by_cases hsa : e.amount > 0
      · simp only [resolve_dispute, hfind, hst, ne_eq, not_true_eq_false, if_false,
          DisputeResolution.calculate_amounts, hsa, if_true, credit_wallet, hsb, hws]
        simp [hsa, hbuyer_seller, hns, hws, hbb, hsb]
      · simp only [resolve_dispute, hfind, hst, ne_eq, not_true_eq_false, if_false,
          DisputeResolution.calculate_amounts, hsa, if_false]
        simp [hsa, hbb, hsb]
    | Burn =>
      simp only [resolve_dispute, hfind, hst, ne_eq, not_true_eq_false, if_false,
        DisputeResolution.calculate_amounts]
      simp [hbb, hsb]
    | Split b s =>
      simp only [DisputeResolution.calculate_amounts] at hwb hws ⊢
      by_cases hba : (wrap64 (e.amount * (b.val : Int))).tdiv 100 > 0 <;>
      by_cases hsa : (wrap64 (e.amount * (s.val : Int))).tdiv 100 > 0
      · simp only [resolve_dispute, hfind, hst, ne_eq, not_true_eq_false, if_false,
          DisputeResolution.calculate_amounts, hba, hsa, if_true, credit_wallet,
          hbb, hns, hwb]
        simp [hba, hsa, hbuyer_seller, hns, hwb, hws, hsb]
      · simp only [resolve_dispute, hfind, hst, ne_eq, not_true_eq_false, if_false,
          DisputeResolution.calculate_amounts, hba, hsa, if_true, if_false,
          credit_wallet, hbb, hwb]
        simp [hba, hsa, hbuyer_seller, hns, hwb, hsb]
      · simp only [resolve_dispute, hfind, hst, ne_eq, not_true_eq_false, if_false,
          DisputeResolution.calculate_amounts, hba, hsa, if_true, if_false,
          credit_wallet, hsb, hws]
        simp [hba, hsa, hbuyer_seller, hns, hws, hbb]
      · simp only [resolve_dispute, hfind, hst, ne_eq, not_true_eq_false, if_false,
          DisputeResolution.calculate_amounts, hba, hsa, if_false]
        simp [hba, hsa, hbb, hsb]

/-- Store with one disputed escrow of 100 sats and its order:
buyer `"alice"` at balance 7, seller `"bob"` at balance 5. -/
def dbDisputed : Db :=
  { emptyDb with
    users := fun u => if u = "bob" then some 5
      else if u = "alice" then some 7 else none
    escrows := [⟨1, "alice", "bob", 100, "disputed", 5, 0, none⟩]
    orders := [⟨2, 1, "alice", "bob", 1, "disputed", none, 0⟩] }

/-- C5 witness: scenario B — resolving the disputed 100-sat escrow with
`Split{70%, 30%}` credits the buyer 70 and the seller 30, destroys
nothing, and marks the escrow released and the order completed. -/
theorem resolve_dispute_spec_witness :
    (resolve_dispute dbDisputed 1 (.Split 70 30) 9).1 = .ok () ∧
    (resolve_dispute dbDisputed 1 (.Split 70 30) 9).2.escrows =
      [⟨1, "alice", "bob", 100, "released", 5, 0, some 9⟩] ∧
    (resolve_dispute dbDisputed 1 (.Split 70 30) 9).2.users ("alice") = some 77 ∧
    (resolve_dispute dbDisputed 1 (.Split 70 30) 9).2.users ("bob") = some 35 ∧
    (resolve_dispute dbDisputed 1 (.Split 70 30) 9).2.txs =
      [⟨"alice", "escrow_refund", 70, 77, some 1⟩,
       ⟨"bob", "escrow_release", 30, 35, some 1⟩] ∧
    (resolve_dispute dbDisputed 1 (.Split 70 30) 9).2.orders =
      [⟨2, 1, "alice", "bob", 1, "completed", some 9, 0⟩] := by
  have h := resolve_dispute_spec.2.2 dbDisputed 1 (.Split 70 30) 9
    ⟨1, "alice", "bob", 100, "disputed", 5, 0, none⟩ 7 5 rfl (by decide)
    (by decide) rfl rfl (by norm_num) (by norm_num) (by norm_num) (by norm_num)
    (by norm_num) (by norm_num)
  exact ⟨h.1, h.2.1, h.2.2.1, h.2.2.2.1, h.2.2.2.2.1, h.2.2.2.2.2⟩

/-- The row rewrite `release_escrow` applies to the released escrow. -/
def releasedRow (now : Int) (e : Escrow) : Escrow :=
  { e with status := "released", resolved_at := some now }

/-- A raw status string `"held"` decodes to the `Held` variant. -/
theorem status_enum_of_held {e : Escrow} (h : e.status = "held") :
    e.status_enum = .Held := by
  unfold Escrow.status_enum
  rw [h]
  decide

/-- Finding by id commutes with mapping an id-preserving row rewrite. -/
theorem find?_id_map (l : List Escrow) (f : Escrow → Escrow)
    (hf : ∀ e, (f e).id = e.id) (k : Nat) :
    (l.map f).find? (fun e => e.id = k) =
      Option.map f (l.find? (fun e => e.id = k)) := by
  induction l with
  | nil => rfl
  | cons a t ih =>
    by_cases hk : a.id = k
    · rw [List.map_cons, List.find?_cons_of_pos _ (by simp [hf a, hk]),
        List.find?_cons_of_pos _ (by simp [hk])]
      rfl
    · rw [List.map_cons, List.find?_cons_of_neg _ (by simp [hf a, hk]),
        List.find?_cons_of_neg _ (by simp [hk]), ih]

/-- In a list with no duplicate ids, finding a member's id returns that
member. -/
theorem find?_mem_of_nodup : ∀ (l : List Escrow),
    (l.map Escrow.id).Nodup → ∀ e ∈ l,
    l.find? (fun x => x.id = e.id) = some e := by
  intro l
  induction l with
  | nil =>
    intro _ e he
    cases he
  | cons a t ih =>
    intro hnd e he
    rw [List.map_cons] at hnd
    rcases List.mem_cons.mp he with rfl | ht
    · rw [List.find?_cons_of_pos _ (by simp)]
    · have hne : ¬(a.id = e.id) := by
        intro hc
        exact (List.nodup_cons.mp hnd).1 (hc ▸ List.mem_map_of_mem Escrow.id ht)
      rw [List.find?_cons_of_neg _ (by simp [hne])]
      exact ih (List.nodup_cons.mp hnd).2 e ht

/-- Effects of `release_escrow` on a found `Held` row, uniform over
whether the seller's user row exists: the escrow list is rewritten at
that id, user-row existence is preserved, and the call reports `Ok`
exactly when the seller exists (the status rewrite precedes the credit,
so it persists even when the credit fails). -/
theorem release_escrow_held_effects (db : Db) (e : Escrow) (now : Int)
    (hfind : db.findEscrow e.id = some e) (hheld : e.status_enum = .Held) :
    (release_escrow db e.id now).2.escrows =
      db.escrows.map (fun x => if x.id = e.id then releasedRow now x else x) ∧
    (∀ u, ((release_escrow db e.id now).2.users u).isSome = (db.users u).isSome) ∧
    ((release_escrow db e.id now).1 = .ok () ↔
      (db.users e.seller_npub).isSome = true) := by
  cases hu : db.users e.seller_npub with
  | none =>
    simp only [release_escrow, hfind, hheld, ne_eq, not_true_eq_false, if_false,
      credit_wallet, hu]
    refine ⟨by simp [releasedRow], by simp, by simp⟩
  | some bal =>
    simp only [release_escrow, hfind, hheld, ne_eq, not_true_eq_false, if_false,
      credit_wallet, hu]
    refine ⟨by simp [releasedRow], ?_, by simp⟩
    intro u
    by_cases huser : u = e.seller_npub <;> simp [huser, hu]

/-- Invariant of the auto-release loop over a queried snapshot of
distinct held rows: the count grows by the snapshot rows whose seller
exists, every snapshot id is rewritten to released, and user-row
existence is preserved. -/
theorem auto_release_loop_spec (now : Int) :
    ∀ (ps : List Escrow) (db : Db) (acc : Nat),
    (ps.map Escrow.id).Nodup →
    (∀ e ∈ ps, db.findEscrow e.id = some e ∧ e.status = "held") →
    (auto_release_loop now db ps acc).1 =
      acc + (ps.filter (fun e => (db.users e.seller_npub).isSome)).length ∧
    (auto_release_loop now db ps acc).2.escrows =
      db.escrows.map (fun x =>
        if (ps.map Escrow.id).contains x.id then releasedRow now x else x) ∧
    (∀ u, ((auto_release_loop now db ps acc).2.users u).isSome =
      (db.users u).isSome) := by
  intro ps
  induction ps with
  | nil =>
    intro db acc _ _
    refine ⟨by simp [auto_release_loop], by simp [auto_release_loop], ?_⟩
    intro u
    rfl
  | cons e rest ih =>
    intro db acc hnd hpre
    obtain ⟨hfind, hstat⟩ := hpre e (List.mem_cons_self e rest)
    have hheld : e.status_enum = .Held := status_enum_of_held hstat
    rw [List.map_cons] at hnd
    have hnd' : (rest.map Escrow.id).Nodup := (List.nodup_cons.mp hnd).2
    have hnotin : e.id ∉ rest.map Escrow.id := (List.nodup_cons.mp hnd).1
    have heff := release_escrow_held_effects db e now hfind hheld
    rcases hres : release_escrow db e.id now with ⟨r, db'⟩
    rw [hres] at heff
    obtain ⟨hesc, husers, hok⟩ := heff
    have hpre' : ∀ x ∈ rest, db'.findEscrow x.id = some x ∧ x.status = "held" := by
      intro x hx
      have hxne : ¬(x.id = e.id) := by
        intro hc
        exact hnotin (hc ▸ List.mem_map_of_mem Escrow.id hx)
      have hfound := (hpre x (List.mem_cons_of_mem e hx)).1
      refine ⟨?_, (hpre x (List.mem_cons_of_mem e hx)).2⟩
      unfold Db.findEscrow at hfound ⊢
      rw [hesc, find?_id_map db.escrows _
        (fun y => by by_cases h : y.id = e.id <;> simp [h, releasedRow]) x.id,
        hfound]
      simp [releasedRow, hxne]
    have hfiltc : rest.filter (fun x => (db'.users x.seller_npub).isSome) =
        rest.filter (fun x => (db.users x.seller_npub).isSome) :=
      List.filter_congr (fun x _ => husers x.seller_npub)
    have hcomp : ∀ x,
        (if (rest.map Escrow.id).contains x.id then releasedRow now x else x) =
          (fun y => if (rest.map Escrow.id).contains y.id then releasedRow now y
            else y) x := fun x => rfl
    simp only [auto_release_loop, hheld, if_true, hres]
    cases r with
    | ok u =>
      cases u
      have hsell : (db.users e.seller_npub).isSome = true := hok.mp rfl
      obtain ⟨ihc, ihe, ihu⟩ := ih db' (acc + 1) hnd' hpre'
      refine ⟨?_, ?_, ?_⟩
      · have hfc : List.filter (fun x => (db.users x.seller_npub).isSome) (e :: rest) =
            e :: List.filter (fun x => (db.users x.seller_npub).isSome) rest :=
          List.filter_cons_of_pos hsell
        rw [ihc, hfiltc, hfc]
        simp only [List.length_cons]
        omega
      · rw [ihe, hesc, List.map_map]
        apply List.map_congr_left
        intro x _
        simp only [Function.comp]
        by_cases hx : x.id = e.id <;>
          by_cases hc : (rest.map Escrow.id).contains x.id = true <;>
            simp [hx, hc, releasedRow, List.map_cons, List.contains_cons]
      · intro u
        rw [ihu, husers]
    | error err =>
      have hsell : (db.users e.seller_npub).isSome = false := by
        rcases hb : (db.users e.seller_npub).isSome with _ | _
        · rfl
        · cases hok.mpr hb
      obtain ⟨ihc, ihe, ihu⟩ := ih db' acc hnd' hpre'
      refine ⟨?_, ?_, ?_⟩
      · have hfc : List.filter (fun x => (db.users x.seller_npub).isSome) (e :: rest) =
            List.filter (fun x => (db.users x.seller_npub).isSome) rest :=
          List.filter_cons_of_neg (by simp [hsell])
        rw [ihc, hfiltc, hfc]
      · rw [ihe, hesc, List.map_map]
        apply List.map_congr_left
        intro x _
        simp only [Function.comp]
        by_cases hx : x.id = e.id <;>
          by_cases hc : (rest.map Escrow.id).contains x.id = true <;>
            simp [hx, hc, releasedRow, List.map_cons, List.contains_cons]
      · intro u
        rw [ihu, husers]

/-- C7: a scheduler tick rewrites to `'released'` exactly the escrows
whose raw status is `'held'` and whose `auto_release_at` has passed —
rows in any other status, disputed ones past the same deadline included,
are untouched — and reports as its count the due held rows whose seller
row exists (a per-row failure is skipped, not propagated: rows after a
failed release are still processed). -/
theorem process_auto_releases_spec (db : Db) (now : Int)
    (hnodup : (db.escrows.map Escrow.id).Nodup) :
    (process_auto_releases db now).1 = .ok ((db.escrows.filter (fun e =>
      (e.status = "held" && decide (e.auto_release_at ≤ now)) &&
      (db.users e.seller_npub).isSome)).length) ∧
    (process_auto_releases db now).2.escrows = db.escrows.map (fun e =>
      if e.status = "held" && decide (e.auto_release_at ≤ now) then
        releasedRow now e
      else e) := by
  have hnd : ((get_pending_auto_releases db now).map Escrow.id).Nodup :=
    hnodup.sublist ((List.filter_sublist db.escrows).map Escrow.id)
  have hpre : ∀ e ∈ get_pending_auto_releases db now,
      db.findEscrow e.id = some e ∧ e.status = "held" := by
    intro e he
    rw [get_pending_auto_releases] at he
    have hm := List.mem_filter.mp he
    refine ⟨find?_mem_of_nodup db.escrows hnodup e hm.1, ?_⟩
    have := hm.2
    simp only [Bool.and_eq_true, decide_eq_true_eq] at this
    exact this.1
  obtain ⟨hc, he, _⟩ :=
    auto_release_loop_spec now (get_pending_auto_releases db now) db 0 hnd hpre
  constructor
  · simp only [process_auto_releases]
    rw [hc, Nat.zero_add, get_pending_auto_releases, List.filter_filter]
    exact congrArg (fun n => Except.ok n) (congrArg List.length
      (List.filter_congr (fun a _ => Bool.and_comm _ _)))
  · simp only [process_auto_releases]
    rw [he]
    apply List.map_congr_left
    intro x hx
    have hiff : ((get_pending_auto_releases db now).map Escrow.id).contains x.id =
        (x.status = "held" && decide (x.auto_release_at ≤ now)) := by
      by_cases hdue : (x.status = "held" && decide (x.auto_release_at ≤ now)) = true
      · rw [hdue]
        rw [List.elem_iff]
        refine List.mem_map_of_mem Escrow.id ?_
        rw [get_pending_auto_releases]
        exact List.mem_filter.mpr ⟨hx, hdue⟩
      · have hnot : x.id ∉ (get_pending_auto_releases db now).map Escrow.id := by
          intro hmem
          obtain ⟨y, hy, hyid⟩ := List.mem_map.mp hmem
          rw [get_pending_auto_releases] at hy
          have hyx : y = x := List.inj_on_of_nodup_map hnodup
            (List.mem_of_mem_filter hy) hx hyid
          exact hdue (hyx ▸ (List.mem_filter.mp hy).2)
        have hcf : ((get_pending_auto_releases db now).map Escrow.id).contains x.id
            = false :=
          Bool.eq_false_iff.mpr (fun h => hnot (List.elem_iff.mp h))
        have hdf : (x.status = "held" && decide (x.auto_release_at ≤ now)) = false :=
          Bool.eq_false_iff.mpr hdue
        rw [hcf, hdf]
    rw [hiff]

/-- Store for scenario E: one held escrow and one disputed escrow, both
past the same `auto_release_at = 5` deadline, sellers existing. -/
def dbSweep : Db :=
  { emptyDb with
    users := fun u => if u = "bob" then some 5
      else if u = "alice" then some 100 else none
    escrows := [⟨1, "alice", "bob", 40, "held", 5, 0, none⟩,
                ⟨2, "alice", "bob", 60, "disputed", 5, 0, none⟩] }

/-- C7 witness: scenario E — the tick at time 10 releases only the held
escrow, leaves the disputed one untouched, and reports one success. -/
theorem process_auto_releases_spec_witness :
    (process_auto_releases dbSweep 10).1 = .ok 1 ∧
    (process_auto_releases dbSweep 10).2.escrows =
      [⟨1, "alice", "bob", 40, "released", 5, 0, some 10⟩,
       ⟨2, "alice", "bob", 60, "disputed", 5, 0, none⟩] := by
  have h := process_auto_releases_spec dbSweep 10 (by decide)
  exact ⟨h.1, h.2⟩

end CashuMarket
